import Mathlib

/-!
Verification of the WAuto WhatsApp automation backend core
(contact directory, recipient resolver, send-command parser,
conversation store, agent orchestrator) against its specification.

The Python sources are shallowly embedded as executable Lean
definitions: Python dicts become insertion-ordered association lists,
Python strings become Lean `String`s over their character data (the
embedding models the ASCII behaviour of `str.isdigit`, `str.lower` and
`str.strip`), fallible code takes its backend outcome as an explicit
`Except` argument, and the regular-expression patterns of the command
parser are embedded as backtracking scanners with the same
greedy/lazy/anchoring semantics as the Python `re` patterns they
translate.
-/

namespace WAuto

/-! ## Python string primitives -/

/-- ASCII whitespace recognised by Python `str.strip()` / `\s`. -/
def isPySpace (c : Char) : Bool :=
  c = ' ' || c = '\t' || c = '\n' || c = '\r' || c = '\x0b' || c = '\x0c'

/-- Python `str.strip()` on character lists. -/
def pyStripList (l : List Char) : List Char :=
  ((l.dropWhile isPySpace).reverse.dropWhile isPySpace).reverse

/-- Python `str.strip()`. -/
def pyStrip (s : String) : String := String.mk (pyStripList s.data)

/-- Python `str.lower()` (ASCII range). -/
def lowerChar (c : Char) : Char :=
  if 65 ≤ c.toNat && c.toNat ≤ 90 then Char.ofNat (c.toNat + 32) else c

/-- Python `str.lower()` on strings (ASCII range). -/
def pyLower (s : String) : String := String.mk (s.data.map lowerChar)

/-- Python `str.isdigit` for a single character (ASCII range). -/
def isAsciiDigit (c : Char) : Bool := '0' ≤ c && c ≤ '9'

/-- Python substring containment `needle in hay`. -/
def hasSub (hay needle : List Char) : Bool :=
  match hay with
  | [] => needle.isEmpty
  | _ :: t => needle.isPrefixOf hay || hasSub t needle

/-! ## Contact directory (`server/services/contact_service.py`)

A contact entry stores a display name together with the provenance flag
distinguishing user-set names from webhook-learned ones.  The Python
`self.contacts` dict is embedded as an insertion-ordered association
list with unique keys; `dictSet` is Python dict assignment (replace in
place when the key exists, append otherwise). -/

structure ContactEntry where
  name : String
  user_defined : Bool
deriving DecidableEq, Repr

/-- The in-memory contact directory: normalized phone key to entry. -/
abbrev Contacts := List (String × ContactEntry)

/-- Python dict assignment `d[k] = v`: replace the binding in place if
the key is present, append otherwise. -/
def dictSet (l : Contacts) (k : String) (v : ContactEntry) : Contacts :=
  match l with
  | [] => [(k, v)]
  | (k₁, v₁) :: rest => if k₁ == k then (k, v) :: rest else (k₁, v₁) :: dictSet rest k v

/-- `ContactService._normalize_phone`: keep only digit characters. -/
def normalizePhone (phone : String) : String :=
  String.mk (phone.data.filter isAsciiDigit)

/-- Python `nk[-10:]`: the last 10 characters, or the whole string when
it is shorter than 10 characters. -/
def lastTenChars (s : String) : String :=
  String.mk (s.data.drop (s.data.length - 10))

/-- `ContactService.get_contact_name`: exact lookup on the normalized
key, then a suffix match on the last 10 digits over the stored keys in
insertion order, finally falling back to the raw input. -/
def getContactName (contacts : Contacts) (phone_number : String) : String :=
  let nk := normalizePhone phone_number
  if nk = "" then phone_number
  else
    match contacts.lookup nk with
    | some entry => if entry.name = "" then phone_number else entry.name
    | none =>
      let suffix := lastTenChars nk
      match contacts.find? (fun p => suffix.data.isSuffixOf p.1.data) with
      | some p => if p.2.name = "" then phone_number else p.2.name
      | none => phone_number

/-- `ContactService.update_contact_from_webhook` (the spec's
`learn_from_inbound`): returns the updated directory together with the
name reported back to the webhook pipeline.  Rule 1: an exact entry is
returned unchanged.  Rule 2: a suffix-matching entry (first in
insertion order) is aliased under the new key, copying name and
provenance.  Rule 3: a non-empty (after stripping) webhook name creates
a fresh entry with `user_defined := false`.  Rule 4: the raw input
phone number is returned. -/
def updateContactFromWebhook (contacts : Contacts) (phone_number : String)
    (webhook_name : Option String) : Contacts × String :=
  let nk := normalizePhone phone_number
  match contacts.lookup nk with
  | some entry => (contacts, entry.name)
  | none =>
    let suffix := lastTenChars nk
    match contacts.find? (fun p => suffix.data.isSuffixOf p.1.data) with
    | some p => (dictSet contacts nk ⟨p.2.name, p.2.user_defined⟩, p.2.name)
    | none =>
      match webhook_name with
      | some w =>
        if pyStrip w = "" then (contacts, phone_number)
        else (dictSet contacts nk ⟨pyStrip w, false⟩, pyStrip w)
      | none => (contacts, phone_number)

/-! ## Send-command parser (`EndMessageMCP._parse_send_command`)

The three Python regular expressions

  1. `^(?:send|sent)\s+"(.*?)"\s+to\s+(.+)$`  (IGNORECASE, DOTALL)
  2. `^(?:send|sent)\s+'(.*?)'\s+to\s+(.+)$`  (IGNORECASE, DOTALL)
  3. `^(?:send|sent)\s+(.+?)\s+to\s+(.+)$`    (IGNORECASE)

are embedded as backtracking scanners over the character list, with
Python `re.match` semantics: anchored at the start, `$` matching at the
end of the string or just before a final newline, greedy `\s+` and
`(.+)` tried longest-first, lazy `(.*?)`/`(.+?)` tried shortest-first,
and `.` matching newline only under DOTALL. -/

/-- Consume `(?:send|sent)` case-insensitively. -/
def matchVerbCI : List Char → Option (List Char)
  | c₁ :: c₂ :: c₃ :: c₄ :: rest =>
    if lowerChar c₁ = 's' && lowerChar c₂ = 'e' && lowerChar c₃ = 'n' &&
       (lowerChar c₄ = 'd' || lowerChar c₄ = 't')
    then some rest else none
  | _ => none

/-- Consume `\s+` by maximal munch (valid whenever the following regex
token cannot match a whitespace character). -/
def munchWs1 (l : List Char) : Option (List Char) :=
  match l with
  | [] => none
  | c :: rest => if isPySpace c then some (rest.dropWhile isPySpace) else none

/-- `(.+)$` under DOTALL: the greedy `.+` consumes the whole remainder
and `$` holds at the end, so any non-empty remainder is the group. -/
def dotPlusDollarDotAll (t : List Char) : Option (List Char) :=
  if t.isEmpty then none else some t

/-- `(.+)$` without DOTALL: the greedy `.+` consumes the maximal
newline-free prefix, and `$` holds at the end of the string or just
before a trailing final newline. -/
def dotPlusDollarNoNL (t : List Char) : Option (List Char) :=
  let p := t.takeWhile (fun c => c ≠ '\n')
  let r := t.drop p.length
  if p.isEmpty then none
  else
    match r with
    | [] => some p
    | ['\n'] => some p
    | _ => none

/-- Backtracking over the length of a greedy `\s+` run: try consuming
`k` whitespace characters for `k` from the maximal run length down to
1, handing the rest to the continuation `f`. -/
def tryRuns (f : List Char → Option (List Char)) (rem : List Char) : Nat → Option (List Char)
  | 0 => none
  | Nat.succ k =>
    match f (rem.drop (k + 1)) with
    | some g => some g
    | none => tryRuns f rem k

/-- `\s+(.+)$`: a greedy whitespace run (longest first) followed by the
final group, under or without DOTALL. -/
def tailGroup (dotall : Bool) (rem : List Char) : Option (List Char) :=
  match rem with
  | [] => none
  | c :: rest =>
    if isPySpace c then
      tryRuns (if dotall then dotPlusDollarDotAll else dotPlusDollarNoNL)
        (c :: rest) ((c :: rest).takeWhile isPySpace).length
    else none

/-- `\s+to\s+(.+)$`: whitespace, the literal `to` case-insensitively,
then the final group.  The leading `\s+` can be taken by maximal munch
because a released whitespace character can never match `t`. -/
def matchToTail (dotall : Bool) (rem : List Char) : Option (List Char) :=
  match munchWs1 rem with
  | none => none
  | some afterWs =>
    match afterWs with
    | t :: o :: rest =>
      if lowerChar t = 't' && lowerChar o = 'o' then tailGroup dotall rest else none
    | _ => none

/-- Lazy scan of `(.*?)q\s+to\s+(.+)$` (DOTALL): closing-quote
candidates are tried left to right; a quote whose tail does not match
becomes part of the message group. -/
def scanQuoted (q : Char) (l : List Char) (acc : List Char) :
    Option (List Char × List Char) :=
  match l with
  | [] => none
  | c :: rest =>
    if c = q then
      match matchToTail true rest with
      | some g₂ => some (acc.reverse, g₂)
      | none => scanQuoted q rest (c :: acc)
    else scanQuoted q rest (c :: acc)

/-- Patterns 1 and 2: `^(?:send|sent)\s+q(.*?)q\s+to\s+(.+)$` with
quote character `q`, IGNORECASE and DOTALL.  The `\s+` before the
opening quote is maximal munch since a quote is not whitespace. -/
def matchQuoted (q : Char) (cmd : List Char) : Option (List Char × List Char) :=
  match matchVerbCI cmd with
  | none => none
  | some afterVerb =>
    match munchWs1 afterVerb with
    | none => none
    | some afterWs =>
      match afterWs with
      | c :: rest => if c = q then scanQuoted q rest [] else none
      | [] => none

/-- Lazy scan of `(.+?)\s+to\s+(.+)$` without DOTALL: the message group
grows one (non-newline) character at a time, and after each character
the separator and recipient group are attempted. -/
def scanUnquoted (l : List Char) (acc : List Char) :
    Option (List Char × List Char) :=
  match l with
  | [] => none
  | c :: rest =>
    if c = '\n' then none
    else
      match matchToTail false rest with
      | some g₂ => some ((c :: acc).reverse, g₂)
      | none => scanUnquoted rest (c :: acc)

/-- Backtracking over the `\s+` run after the verb in pattern 3: the
run is tried longest first, and released whitespace characters may be
absorbed by the lazy message group. -/
def tryRunsUnquoted (rem : List Char) : Nat → Option (List Char × List Char)
  | 0 => none
  | Nat.succ k =>
    match scanUnquoted (rem.drop (k + 1)) [] with
    | some r => some r
    | none => tryRunsUnquoted rem k

/-- Pattern 3: `^(?:send|sent)\s+(.+?)\s+to\s+(.+)$`, IGNORECASE, no
DOTALL. -/
def matchUnquoted (cmd : List Char) : Option (List Char × List Char) :=
  match matchVerbCI cmd with
  | none => none
  | some afterVerb =>
    match afterVerb with
    | [] => none
    | c :: rest =>
      if isPySpace c then
        tryRunsUnquoted (c :: rest) ((c :: rest).takeWhile isPySpace).length
      else none

/-- `EndMessageMCP._parse_send_command`: strip the command, try the
double-quoted, single-quoted and unquoted patterns in that order with
first match winning; quoted messages are returned verbatim, recipients
and unquoted messages are stripped; no match yields `(none, none)`. -/
def parseSendCommand (command : String) : Option String × Option String :=
  let cmd := (pyStrip command).data
  match matchQuoted '"' cmd with
  | some (g₁, g₂) => (some (String.mk g₁), some (pyStrip (String.mk g₂)))
  | none =>
    match matchQuoted '\'' cmd with
    | some (g₁, g₂) => (some (String.mk g₁), some (pyStrip (String.mk g₂)))
    | none =>
      match matchUnquoted cmd with
      | some (g₁, g₂) => (some (pyStrip (String.mk g₁)), some (pyStrip (String.mk g₂)))
      | none => (none, none)

/-! ## Recipient resolvers and `process_command`
(`server/services/mcp_services.py`, `server/services/advanced_mcp.py`)

The alias map is a Python dict embedded as an insertion-ordered
association list mapping alias tokens to contact ids. -/

/-- `EndMessageMCP._resolve_contact`: exact lookup of the
lowercased-stripped name, then substring containment in either
direction (first alias in insertion order wins), finally the literal
name itself whenever it is non-empty (Python `name if name else None`,
with no phone-like validation). -/
def resolveContact (name : String) (aliases : List (String × String)) : Option String :=
  let nl := pyStrip (pyLower name)
  match aliases.lookup nl with
  | some cid => some cid
  | none =>
    match aliases.find? (fun p => hasSub p.1.data nl.data || hasSub nl.data p.1.data) with
    | some p => some p.2
    | none => if name = "" then none else some name

/-- `MeetingMCP._resolve_contact` in `advanced_mcp.py`: identical to
`resolveContact` except that it returns `none` when no alias matches
(it never falls back to the literal name). -/
def resolveContactMeeting (name : String) (aliases : List (String × String)) :
    Option String :=
  let nl := pyStrip (pyLower name)
  match aliases.lookup nl with
  | some cid => some cid
  | none =>
    match aliases.find? (fun p => hasSub p.1.data nl.data || hasSub nl.data p.1.data) with
    | some p => some p.2
    | none => none

/-- The decision reached by `EndMessageMCP.process_command` before any
network side effect: a parse failure response, the "Contact not found
in aliases" response, or a send with resolved contact id, message text
and recipient name. -/
inductive SendDecision where
  | parseError : SendDecision
  | notFound : String → SendDecision
  | send : String → String → String → SendDecision
deriving DecidableEq, Repr

/-- The branching logic of `EndMessageMCP.process_command` (lines
32-57): parse the command; a missing or falsy (empty) message or
recipient yields the could-not-parse error; a falsy resolver result
(`None` or the empty string, Python `if not contact_id`) yields the
not-found error; otherwise the message is sent to the resolved id. -/
def processCommandDecision (command : String) (aliases : List (String × String)) :
    SendDecision :=
  match parseSendCommand command with
  | (mt, rt) =>
    match mt, rt with
    | some m, some r =>
      if m = "" || r = "" then .parseError
      else
        match resolveContact r aliases with
        | none => .notFound r
        | some cid => if cid = "" then .notFound r else .send cid m r
    | _, _ => .parseError

/-! ## Conversation store (`server/services/vector_service.py`)

Message records carry the metadata written by `add_message`; the
backing ChromaDB collection is embedded as the insertion-ordered list
of records, and the fallible collection calls take their outcome as an
explicit `Except` argument. -/

structure MessageRecord where
  contact_id : String
  text : String
  sender : String
  receiver : String
  timestamp : Nat
  date_time : String
deriving DecidableEq, Repr

/-- Left-pad a numeral to two digits. -/
def pad2 (n : Nat) : String := if n < 10 then "0" ++ toString n else toString n

/-- Left-pad a numeral to six digits (ISO microseconds). -/
def pad6 (n : Nat) : String :=
  let s := toString n
  String.mk (List.replicate (6 - s.length) '0') ++ s

/-- Convert a day count since 1970-01-01 to a civil (year, month, day)
date, for timestamps at or after the epoch. -/
def civilFromDays (z₀ : Nat) : Nat × Nat × Nat :=
  let z := z₀ + 719468
  let era := z / 146097
  let doe := z % 146097
  let yoe := (doe - doe / 1460 + doe / 36524 - doe / 146096) / 365
  let y := yoe + era * 400
  let doy := doe - (365 * yoe + yoe / 4 - yoe / 100)
  let mp := (5 * doy + 2) / 153
  let d := doy - (153 * mp + 2) / 5 + 1
  let m := if mp < 10 then mp + 3 else mp - 9
  (if m ≤ 2 then y + 1 else y, m, d)

/-- `datetime.fromtimestamp(ts / 1000).isoformat()` for an
epoch-millisecond timestamp, in the UTC model of the embedding: the
civil date, a `T`, the time of day, and a microsecond part exactly when
the millisecond remainder is non-zero. -/
def isoOfMillis (ms : Nat) : String :=
  let s := ms / 1000
  let usec := (ms % 1000) * 1000
  let date := civilFromDays (s / 86400)
  let secOfDay := s % 86400
  toString date.1 ++ "-" ++ pad2 date.2.1 ++ "-" ++ pad2 date.2.2 ++ "T" ++
    pad2 (secOfDay / 3600) ++ ":" ++ pad2 (secOfDay % 3600 / 60) ++ ":" ++
    pad2 (secOfDay % 60) ++
    (if usec = 0 then "" else "." ++ pad6 usec)

/-- The metadata record written by `VectorService.add_message` for a
message, with the derived ISO datetime computed from the
epoch-millisecond timestamp. -/
def mkMessageRecord (cid text sender receiver : String) (ts : Nat) : MessageRecord :=
  ⟨cid, text, sender, receiver, ts, isoOfMillis ts⟩

/-- The successful path of `VectorService.add_message`: append the new
record to the collection. -/
def addMessage (store : List MessageRecord) (cid text sender receiver : String)
    (ts : Nat) : List MessageRecord :=
  store ++ [mkMessageRecord cid text sender receiver ts]

/-- Insert a record into a timestamp-sorted list, before the first
record with an equal or later timestamp; together with `sortByTs` this
is the stable ascending sort performed by `messages.sort(key=lambda x:
x["timestamp"])`. -/
def insertByTs (r : MessageRecord) : List MessageRecord → List MessageRecord
  | [] => [r]
  | x :: xs => if r.timestamp ≤ x.timestamp then r :: x :: xs else x :: insertByTs r xs

/-- Stable ascending sort on the timestamp field. -/
def sortByTs : List MessageRecord → List MessageRecord
  | [] => []
  | x :: xs => insertByTs x (sortByTs xs)

/-- The default of the `limit` parameter of
`VectorService.get_conversation_history`. -/
def defaultHistoryLimit : Nat := 50

/-- `VectorService.get_conversation_history` (successful path): the
records of the contact, stably sorted ascending by timestamp, then
`messages[-limit:] if limit else messages` — all records when the limit
is 0, otherwise the last `limit` records. -/
def getConversationHistory (store : List MessageRecord) (cid : String) (limit : Nat) :
    List MessageRecord :=
  let sorted := sortByTs (store.filter (fun r => r.contact_id == cid))
  if limit = 0 then sorted else sorted.drop (sorted.length - limit)

/-- `VectorService.add_message` with the outcome of the underlying
`collection.add` call made explicit: on success the collection gains
the record, and a storage error is re-raised as a wrapped
`Failed to add message` exception. -/
def tryAddMessage (backend : Except String Unit) (store : List MessageRecord)
    (cid text sender receiver : String) (ts : Nat) :
    Except String (List MessageRecord) :=
  match backend with
  | .ok _ => .ok (addMessage store cid text sender receiver ts)
  | .error e => .error ("Failed to add message: " ++ e)

/-- `VectorService.get_conversation_history` with the outcome of the
underlying `collection.get` call made explicit: a storage error is
caught and degrades to the empty history. -/
def tryGetConversationHistory (fetch : Except String (List MessageRecord))
    (cid : String) (limit : Nat) : List MessageRecord :=
  match fetch with
  | .ok rows => getConversationHistory rows cid limit
  | .error _ => []

/-- `VectorService.search_similar_messages` with the outcome of the
underlying `collection.query` call made explicit (distances modelled as
integers): on success every result's distance becomes the similarity
score `1 - distance`; an index error is caught and degrades to the
empty result list. -/
def trySearchSimilarMessages (queryRes : Except String (List (MessageRecord × Int))) :
    List (MessageRecord × Int) :=
  match queryRes with
  | .ok rows => rows.map (fun rd => (rd.1, 1 - rd.2))
  | .error _ => []

/-! ## Agent orchestrator (`server/services/context.py`)

`AIAgentContext.process_user_input` is embedded with the outcome of
intent analysis plus routing made explicit as an `Except`: the `.ok`
case is the value returned by `_route_action`, the `.error` case is any
exception escaping into the outer handler. -/

/-- One entry of the in-memory `conversation_history` list; dict keys
missing from a turn (`action_type` on user turns) are `none`. -/
structure AgentTurn where
  role : String
  message : String
  timestamp : String
  action_type : Option String
deriving DecidableEq, Repr

/-- The result dict produced by a `_route_action` handler, restricted
to the keys read back by `process_user_input`. -/
structure ActionResult where
  success : Bool
  response : Option String
  action_type : Option String
deriving DecidableEq, Repr

/-- `AIAgentContext.process_user_input`: append the user turn, run
intent analysis and routing, and append the agent turn — built from the
result on success, and from the `Sorry, I encountered an error` message
with action type `error` when an exception reaches the outer handler.
Returns the new history together with the returned result dict. -/
def processUserInput (hist : List AgentTurn) (user_input : String) (ts : String)
    (route : Except String ActionResult) : List AgentTurn × ActionResult :=
  let hist₁ := hist ++ [⟨"user", user_input, ts, none⟩]
  match route with
  | .ok r =>
    (hist₁ ++ [⟨"agent", r.response.getD "Action completed", ts, r.action_type⟩], r)
  | .error e =>
    let errorResponse := "Sorry, I encountered an error: " ++ e
    (hist₁ ++ [⟨"agent", errorResponse, ts, some "error"⟩],
     ⟨false, some errorResponse, some "error"⟩)

/-! ## Directory lemmas -/

/-- `String.mk` is left inverse to `String.data`. -/
theorem mk_data (s : String) : String.mk s.data = s := by
  cases s
  rfl

/-- A key bound in an association list keeps its binding under a right
append. -/
theorem lookup_append_of_some {α : Type} {l : List (String × α)}
    {k : String} {v : α} (l₂ : List (String × α)) (h : l.lookup k = some v) :
    (l ++ l₂).lookup k = some v := by
  induction l with
  | nil => simp [List.lookup] at h
  | cons p rest ih =>
    obtain ⟨k₁, v₁⟩ := p
    rw [List.cons_append]
    rw [List.lookup] at h ⊢
    cases hk : (k == k₁) with
    | true => rw [hk] at h; simpa [hk] using h
    | false => rw [hk] at h; simpa [hk] using ih h

/-- Python dict assignment on an absent key appends the new binding. -/
theorem dictSet_eq_append {l : Contacts} {k : String} (v : ContactEntry)
    (h : l.lookup k = none) : dictSet l k v = l ++ [(k, v)] := by
  induction l with
  | nil => rfl
  | cons p rest ih =>
    obtain ⟨k₁, v₁⟩ := p
    rw [List.lookup] at h
    cases hk : (k == k₁) with
    | true => rw [hk] at h; simp at h
    | false =>
      rw [hk] at h
      have hk' : (k₁ == k) = false := by
        simp only [beq_eq_false_iff_ne] at hk ⊢
        exact fun he => hk he.symm
      simp [dictSet, hk', ih h]

/-- Claim C1: every contact entry already present in the directory —
its stored name and its `user_defined` provenance flag — is left
unchanged by `update_contact_from_webhook`, for every input phone
number and observed name; in particular a `user_defined = true` name is
never overwritten by a webhook, and alias creation never mutates the
matched original entry. -/
theorem contactEntriesPreservedByWebhook (contacts : Contacts) (phone : String)
    (webhook_name : Option String) (k : String) (e : ContactEntry)
    (h : contacts.lookup k = some e) :
    ((updateContactFromWebhook contacts phone webhook_name).1).lookup k = some e := by
  unfold updateContactFromWebhook
  cases h₁ : contacts.lookup (normalizePhone phone) with
  | some entry => simpa [h₁] using h
  | none =>
    cases h₂ : contacts.find?
        (fun p => (lastTenChars (normalizePhone phone)).data.isSuffixOf p.1.data) with
    | some p =>
      simp only [h₁, h₂]
      rw [dictSet_eq_append _ h₁]
      exact lookup_append_of_some _ h
    | none =>
      cases webhook_name with
      | none => simpa [h₁, h₂] using h
      | some w =>
        by_cases hw : pyStrip w = ""
        · simpa [h₁, h₂, hw] using h
        · simp only [h₁, h₂, if_neg hw]
          rw [dictSet_eq_append _ h₁]
          exact lookup_append_of_some _ h

/-- Witness for C1 at a concrete directory: a suffix-matching webhook
call with a new observed name leaves the original user-defined entry
intact. -/
theorem contactEntriesPreservedByWebhook_witness :
    (([("917000000001", ⟨"Alice", true⟩)] : Contacts).lookup "917000000001" =
        some ⟨"Alice", true⟩) ∧
    ((updateContactFromWebhook [("917000000001", ⟨"Alice", true⟩)] "7000000001"
        (some "Mallory")).1).lookup "917000000001" = some ⟨"Alice", true⟩ :=
  ⟨by decide,
   contactEntriesPreservedByWebhook [("917000000001", ⟨"Alice", true⟩)]
     "7000000001" (some "Mallory") "917000000001" ⟨"Alice", true⟩ (by decide)⟩

/-- Counterexample to C2 as stated: on a wholly new number with the
observed name " Bob " (non-empty after stripping), the webhook update
returns the stripped name "Bob", not the observed name " Bob ". -/
theorem webhookReturnsStrippedName_counterexample :
    (updateContactFromWebhook [] "12345" (some " Bob ")).2 = "Bob" ∧
    (" Bob " : String) ≠ "Bob" := by
  constructor
  · rfl
  · decide

/-- Claim C2 (amended): `update_contact_from_webhook` follows the
strict precedence policy — (1) an exact entry on the normalized key is
returned with no write; (2) else the first stored key ending with the
last 10 digits of the normalized key yields a new alias entry copying
that entry's name and provenance flag, returning that name; (3) else a
webhook name that is non-empty after stripping creates a new entry
holding the stripped name with `user_defined = false` and returns the
stripped name; (4) else the raw input phone number is returned. -/
theorem webhookPrecedencePolicy (contacts : Contacts) (phone : String)
    (webhook_name : Option String) :
    (∀ e, contacts.lookup (normalizePhone phone) = some e →
      updateContactFromWebhook contacts phone webhook_name = (contacts, e.name)) ∧
    (contacts.lookup (normalizePhone phone) = none →
      ∀ p, contacts.find?
          (fun q => (lastTenChars (normalizePhone phone)).data.isSuffixOf q.1.data) =
            some p →
        updateContactFromWebhook contacts phone webhook_name =
          (contacts ++ [(normalizePhone phone, ⟨p.2.name, p.2.user_defined⟩)],
           p.2.name)) ∧
    (contacts.lookup (normalizePhone phone) = none →
      contacts.find?
          (fun q => (lastTenChars (normalizePhone phone)).data.isSuffixOf q.1.data) =
            none →
      ∀ w, webhook_name = some w → pyStrip w ≠ "" →
        updateContactFromWebhook contacts phone webhook_name =
          (contacts ++ [(normalizePhone phone, ⟨pyStrip w, false⟩)], pyStrip w)) ∧
    (contacts.lookup (normalizePhone phone) = none →
      contacts.find?
          (fun q => (lastTenChars (normalizePhone phone)).data.isSuffixOf q.1.data) =
            none →
      (∀ w, webhook_name = some w → pyStrip w = "") →
      updateContactFromWebhook contacts phone webhook_name = (contacts, phone)) := by
  refine ⟨?_, ?_, ?_, ?_⟩
  · intro e h₁
    simp [updateContactFromWebhook, h₁]
  · intro h₁ p h₂
    simp only [updateContactFromWebhook, h₁, h₂]
    rw [dictSet_eq_append _ h₁]
  · intro h₁ h₂ w hw hne
    simp only [updateContactFromWebhook, h₁, h₂, hw, if_neg hne]
    rw [dictSet_eq_append _ h₁]
  · intro h₁ h₂ hw
    cases hwn : webhook_name with
    | none => simp [updateContactFromWebhook, h₁, h₂, hwn]
    | some w => simp [updateContactFromWebhook, h₁, h₂, hwn, hw w hwn]

/-- Witness for C2 at a concrete directory: a suffix-matching webhook
call creates the alias entry copying name and provenance and returns
the matched name. -/
theorem webhookPrecedencePolicy_witness :
    updateContactFromWebhook [("917000000001", ⟨"Alice", true⟩)] "7000000001"
        (some "Mallory") =
      ([("917000000001", ⟨"Alice", true⟩), ("7000000001", ⟨"Alice", true⟩)],
       "Alice") :=
  (webhookPrecedencePolicy [("917000000001", ⟨"Alice", true⟩)] "7000000001"
      (some "Mallory")).2.1 (by decide) ("917000000001", ⟨"Alice", true⟩) (by decide)

/-! ## Resolver lemmas -/

/-- Counterexample to C3 as stated: with no matching alias,
`EndMessageMCP._resolve_contact` returns the literal target "Jhon" even
though it is not a phone-like token (resolution was claimed to fail),
and `MeetingMCP._resolve_contact` returns `none` even on the
phone-like literal "15551234567" (the literal was claimed to be used as
the identifier). -/
theorem resolverLiteralFallback_counterexample :
    resolveContact "Jhon" [("john", "111"), ("johnny", "222")] = some "Jhon" ∧
    resolveContactMeeting "15551234567" [] = none := by
  constructor
  · decide
  · rfl

/-- Claim C3 (amended): recipient resolution proceeds in priority
order — first an exact match of the lowercased-stripped target against
alias keys, then a substring containment match in either direction with
the first alias in insertion order winning; when no alias matches, the
send-path resolver returns the literal target whenever it is non-empty
(with no phone-like validation), while the meeting-path resolver
returns `none`.  The spec's own example resolves "john" to "111". -/
theorem resolverPriorityOrder (name : String) (aliases : List (String × String)) :
    (∀ cid, aliases.lookup (pyStrip (pyLower name)) = some cid →
      resolveContact name aliases = some cid ∧
      resolveContactMeeting name aliases = some cid) ∧
    (aliases.lookup (pyStrip (pyLower name)) = none →
      ∀ p, aliases.find?
          (fun q => hasSub q.1.data (pyStrip (pyLower name)).data ||
            hasSub (pyStrip (pyLower name)).data q.1.data) = some p →
        resolveContact name aliases = some p.2 ∧
        resolveContactMeeting name aliases = some p.2) ∧
    (aliases.lookup (pyStrip (pyLower name)) = none →
      aliases.find?
          (fun q => hasSub q.1.data (pyStrip (pyLower name)).data ||
            hasSub (pyStrip (pyLower name)).data q.1.data) = none →
      resolveContact name aliases = (if name = "" then none else some name) ∧
      resolveContactMeeting name aliases = none) ∧
    resolveContact "john" [("john", "111"), ("johnny", "222")] = some "111" := by
  refine ⟨?_, ?_, ?_, by decide⟩
  · intro cid h₁
    constructor
    · simp [resolveContact, h₁]
    · simp [resolveContactMeeting, h₁]
  · intro h₁ p h₂
    constructor
    · simp [resolveContact, h₁, h₂]
    · simp [resolveContactMeeting, h₁, h₂]
  · intro h₁ h₂
    constructor
    · simp [resolveContact, h₁, h₂]
    · simp [resolveContactMeeting, h₁, h₂]

/-- Witness for C3 at concrete inputs: the exact-match rule fires for
"John" against the alias map, stripping and lowercasing the target
first. -/
theorem resolverPriorityOrder_witness :
    resolveContact " John " [("john", "111"), ("johnny", "222")] = some "111" ∧
    resolveContactMeeting " John " [("john", "111"), ("johnny", "222")] = some "111" :=
  (resolverPriorityOrder " John " [("john", "111"), ("johnny", "222")]).1
    "111" (by decide)

/-! ## Parser theorems -/

/-- Claim C4: the send-command parser tries the double-quoted,
single-quoted and unquoted patterns in order, case-insensitively, with
first match winning; quoted messages may span multiple lines; the
unquoted form splits at the first ` to ` separator with the message
side non-greedy (so the remainder "b to c" stays with the recipient);
`send "hello there" to Shubham` parses to `("hello there", "Shubham")`;
a command matching no pattern, such as `hello John`, yields
`(none, none)`, and `process_command` then returns the could-not-parse
error response rather than silently doing nothing. -/
theorem sendCommandParserSpec :
    parseSendCommand "send \"hello there\" to Shubham" =
      (some "hello there", some "Shubham") ∧
    parseSendCommand "send good morning to John" =
      (some "good morning", some "John") ∧
    parseSendCommand "hello John" = (none, none) ∧
    parseSendCommand "send \"line one\nline two\" to Ann" =
      (some "line one\nline two", some "Ann") ∧
    parseSendCommand "send 'line one\nline two' to Ann" =
      (some "line one\nline two", some "Ann") ∧
    parseSendCommand "send a to b to c" = (some "a", some "b to c") ∧
    parseSendCommand "SENT \"Hi\" TO Bob" = (some "Hi", some "Bob") ∧
    (∀ command g, matchQuoted '"' (pyStrip command).data = some g →
      parseSendCommand command =
        (some (String.mk g.1), some (pyStrip (String.mk g.2)))) ∧
    (∀ command g, matchQuoted '"' (pyStrip command).data = none →
      matchQuoted '\'' (pyStrip command).data = some g →
      parseSendCommand command =
        (some (String.mk g.1), some (pyStrip (String.mk g.2)))) ∧
    (∀ command aliases, parseSendCommand command = (none, none) →
      processCommandDecision command aliases = .parseError) := by
  refine ⟨by decide, by decide, by decide, by decide, by decide, by decide, by decide,
    ?_, ?_, ?_⟩
  · intro command g h
    obtain ⟨g₁, g₂⟩ := g
    simp [parseSendCommand, h]
  · intro command g h₁ h₂
    obtain ⟨g₁, g₂⟩ := g
    simp [parseSendCommand, h₁, h₂]
  · intro command aliases h
    simp [processCommandDecision, h]

/-- Witness for C4 at a concrete command: `hello John` parses to
`(none, none)` and `process_command` reaches the could-not-parse error
branch on it. -/
theorem sendCommandParserSpec_witness :
    processCommandDecision "hello John" [("john", "111")] = .parseError :=
  sendCommandParserSpec.2.2.2.2.2.2.2.2.2 "hello John" [("john", "111")] (by decide)

/-! ## Conversation-store lemmas -/

/-- Inserting into the sort is a permutation with consing. -/
theorem insertByTs_perm (r : MessageRecord) (l : List MessageRecord) :
    List.Perm (insertByTs r l) (r :: l) := by
  induction l with
  | nil => simp [insertByTs]
  | cons x xs ih =>
    by_cases hrx : r.timestamp ≤ x.timestamp
    · simp [insertByTs, hrx]
    · simp only [insertByTs, if_neg hrx]
      exact (ih.cons x).trans (List.Perm.swap r x xs)

/-- The timestamp sort permutes the records. -/
theorem sortByTs_perm (l : List MessageRecord) : List.Perm (sortByTs l) l := by
  induction l with
  | nil => simp [sortByTs]
  | cons x xs ih => exact (insertByTs_perm x (sortByTs xs)).trans (ih.cons x)

/-- Membership in the sort insertion. -/
theorem mem_insertByTs {b r : MessageRecord} {l : List MessageRecord}
    (h : b ∈ insertByTs r l) : b = r ∨ b ∈ l := by
  have := (insertByTs_perm r l).mem_iff.mp h
  simpa using this

/-- The sort insertion preserves ascending timestamp order. -/
theorem insertByTs_pairwise (r : MessageRecord) {l : List MessageRecord}
    (h : l.Pairwise (fun a b => a.timestamp ≤ b.timestamp)) :
    (insertByTs r l).Pairwise (fun a b => a.timestamp ≤ b.timestamp) := by
  induction l with
  | nil => simp [insertByTs]
  | cons x xs ih =>
    rw [List.pairwise_cons] at h
    by_cases hrx : r.timestamp ≤ x.timestamp
    · simp only [insertByTs, if_pos hrx, List.pairwise_cons]
      refine ⟨?_, h⟩
      intro b hb
      rcases List.mem_cons.mp hb with rfl | hb
      · exact hrx
      · exact le_trans hrx (h.1 b hb)
    · simp only [insertByTs, if_neg hrx, List.pairwise_cons]
      refine ⟨?_, ih h.2⟩
      intro b hb
      rcases mem_insertByTs hb with hb | hb
      · subst hb
        omega
      · exact h.1 b hb

/-- The timestamp sort sorts ascending. -/
theorem sortByTs_pairwise (l : List MessageRecord) :
    (sortByTs l).Pairwise (fun a b => a.timestamp ≤ b.timestamp) := by
  induction l with
  | nil => simp [sortByTs]
  | cons x xs ih => exact insertByTs_pairwise x ih

/-- Stability of the sort insertion: restricting to any one timestamp
value, insertion behaves as consing (the new record lands before every
record with the same timestamp only by passing records with strictly
smaller timestamps). -/
theorem insertByTs_filter_eqTs (r : MessageRecord) (l : List MessageRecord) (t : Nat) :
    (insertByTs r l).filter (fun x => x.timestamp == t) =
      (r :: l).filter (fun x => x.timestamp == t) := by
  induction l with
  | nil => rfl
  | cons x xs ih =>
    by_cases hrx : r.timestamp ≤ x.timestamp
    · simp [insertByTs, hrx]
    · simp only [insertByTs, if_neg hrx]
      by_cases hr : r.timestamp = t
      · have hx : ¬ (x.timestamp = t) := by omega
        simp only [List.filter_cons, hr, hx, beq_iff_eq, if_pos, if_neg, decide_eq_true_eq]
        simp only [beq_iff_eq] at ih
        simp [hx, hr, ih]
      · simp only [List.filter_cons, beq_iff_eq] at ih ⊢
        simp [hr, ih]

/-- Stability of the timestamp sort: the subsequence of records at any
one timestamp is exactly their original insertion-order subsequence. -/
theorem sortByTs_filter_eqTs (l : List MessageRecord) (t : Nat) :
    (sortByTs l).filter (fun x => x.timestamp == t) =
      l.filter (fun x => x.timestamp == t) := by
  induction l with
  | nil => rfl
  | cons x xs ih =>
    rw [sortByTs, insertByTs_filter_eqTs]
    simp only [List.filter_cons, ih]

/-- The timestamp sort preserves length. -/
theorem sortByTs_length (l : List MessageRecord) :
    (sortByTs l).length = l.length :=
  (sortByTs_perm l).length_eq

/-- A store of 51 records for one contact, used to exhibit the default
limit of `get_conversation_history`. -/
def manyRecords : List MessageRecord :=
  (List.range 51).map (fun i => mkMessageRecord "c" "m" "s" "r" i)

/-- Counterexample to C5 as stated: an unset limit does not mean "all
records" — the Python default is `limit = 50`, so on a store of 51
records the call without a limit returns strictly fewer records than
the limit-0 (all records) call. -/
theorem historyDefaultLimit_counterexample :
    getConversationHistory manyRecords "c" defaultHistoryLimit ≠
      getConversationHistory manyRecords "c" 0 := by
  decide

/-- Claim C5 (amended): conversation-history retrieval returns the
contact's records sorted ascending by timestamp and truncated to the
most recent `limit` entries; a limit of 0 means all records, while an
unset limit defaults to the most recent 50; ties on timestamp keep
insertion order (stable sort); with limit 2 on three messages at
timestamps 1 < 2 < 3 exactly the records at 2 and 3 are returned, in
that order. -/
theorem historyOrderingSpec (store : List MessageRecord) (cid : String) (limit : Nat) :
    (getConversationHistory store cid limit).Pairwise
        (fun a b => a.timestamp ≤ b.timestamp) ∧
    List.Perm (getConversationHistory store cid 0)
        (store.filter (fun r => r.contact_id == cid)) ∧
    (∀ t, (getConversationHistory store cid 0).filter (fun r => r.timestamp == t) =
      (store.filter (fun r => r.contact_id == cid)).filter
        (fun r => r.timestamp == t)) ∧
    (0 < limit → (getConversationHistory store cid limit).length =
      min limit (store.filter (fun r => r.contact_id == cid)).length) ∧
    defaultHistoryLimit = 50 ∧
    getConversationHistory
        [mkMessageRecord "c" "m1" "s" "r" 1, mkMessageRecord "c" "m2" "s" "r" 2,
         mkMessageRecord "c" "m3" "s" "r" 3] "c" 2 =
      [mkMessageRecord "c" "m2" "s" "r" 2, mkMessageRecord "c" "m3" "s" "r" 3] := by
  refine ⟨?_, ?_, ?_, ?_, rfl, by decide⟩
  · by_cases hl : limit = 0
    · subst hl
      simpa [getConversationHistory] using
        sortByTs_pairwise (store.filter (fun r => r.contact_id == cid))
    · have hs := sortByTs_pairwise (store.filter (fun r => r.contact_id == cid))
      simp only [getConversationHistory, if_neg hl]
      exact hs.sublist (List.drop_sublist _ _)
  · simpa [getConversationHistory] using
      sortByTs_perm (store.filter (fun r => r.contact_id == cid))
  · intro t
    simpa [getConversationHistory] using
      sortByTs_filter_eqTs (store.filter (fun r => r.contact_id == cid)) t
  · intro hl
    have hne : ¬ (limit = 0) := by omega
    simp only [getConversationHistory, if_neg hne, List.length_drop, sortByTs_length]
    omega

/-- Witness for C5 at a concrete store: the truncation length equals
the minimum of the limit and the record count. -/
theorem historyOrderingSpec_witness :
    (getConversationHistory [mkMessageRecord "c" "m1" "s" "r" 5] "c" 3).length =
      min 3 ([mkMessageRecord "c" "m1" "s" "r" 5].filter
        (fun r => r.contact_id == "c")).length :=
  (historyOrderingSpec [mkMessageRecord "c" "m1" "s" "r" 5] "c" 3).2.2.2.1
    (by decide)

/-- Counterexample to C6 as stated: a storage error during the append
operation does not degrade to an empty result — `add_message` catches
the storage error and re-raises it as a wrapped `Failed to add message`
exception, which propagates to the caller. -/
theorem addMessagePropagatesError_counterexample :
    tryAddMessage (Except.error "disk full") [] "c" "t" "s" "r" 0 =
      Except.error "Failed to add message: disk full" := rfl

/-- Claim C6 (amended): history retrieval and similarity search catch
storage/index errors and degrade to an empty result, but the append
operation re-raises a wrapped exception on a storage error instead of
degrading; on success the append extends the collection with the new
record. -/
theorem storeErrorHandlingSpec (e : String) (store : List MessageRecord)
    (cid text sender receiver : String) (ts : Nat) (limit : Nat) :
    tryGetConversationHistory (Except.error e) cid limit = [] ∧
    trySearchSimilarMessages (Except.error e) = [] ∧
    tryAddMessage (Except.error e) store cid text sender receiver ts =
      Except.error ("Failed to add message: " ++ e) ∧
    tryAddMessage (Except.ok ()) store cid text sender receiver ts =
      Except.ok (store ++ [mkMessageRecord cid text sender receiver ts]) :=
  ⟨rfl, rfl, rfl, rfl⟩

/-! ## Orchestrator and round-trip theorems -/

/-- Claim C7: for every user input processed by the agent orchestrator
— including inputs whose routing raises an internal error — both the
user's input turn and the agent's resulting message turn, the latter
tagged with an action type, are appended to the in-memory conversation
history before the call returns. -/
theorem agentHistoryAppendsBothTurns (hist : List AgentTurn) (user_input ts : String)
    (route : Except String ActionResult)
    (htag : ∀ r, route = .ok r → r.action_type.isSome) :
    ∃ m a, (processUserInput hist user_input ts route).1 =
      hist ++ [⟨"user", user_input, ts, none⟩, ⟨"agent", m, ts, some a⟩] := by
  cases route with
  | ok r =>
    obtain ⟨a, ha⟩ := Option.isSome_iff_exists.mp (htag r rfl)
    exact ⟨r.response.getD "Action completed", a, by simp [processUserInput, ha]⟩
  | error e =>
    exact ⟨"Sorry, I encountered an error: " ++ e, "error",
      by simp [processUserInput]⟩

/-- Witness for C7 at a concrete failing request: the user turn and the
error-tagged agent turn are both appended. -/
theorem agentHistoryAppendsBothTurns_witness :
    ∃ m a, (processUserInput [] "hi" "2025-01-01 00:00:00" (Except.error "boom")).1 =
      [⟨"user", "hi", "2025-01-01 00:00:00", none⟩,
       ⟨"agent", m, "2025-01-01 00:00:00", some a⟩] :=
  agentHistoryAppendsBothTurns [] "hi" "2025-01-01 00:00:00" (Except.error "boom")
    (fun _ h => by cases h)

/-- Claim C8: appending a message and then reading conversation history
for that contact returns a record whose text, sender and receiver equal
the appended inputs exactly, and whose derived ISO datetime is the one
computed from the stored epoch-millisecond timestamp. -/
theorem messageRoundTrip (store : List MessageRecord)
    (cid text sender receiver : String) (ts : Nat) :
    ∃ rec, rec ∈ getConversationHistory
        (addMessage store cid text sender receiver ts) cid 0 ∧
      rec.text = text ∧ rec.sender = sender ∧ rec.receiver = receiver ∧
      rec.timestamp = ts ∧ rec.date_time = isoOfMillis rec.timestamp := by
  refine ⟨mkMessageRecord cid text sender receiver ts, ?_, rfl, rfl, rfl, rfl, rfl⟩
  have hmem : mkMessageRecord cid text sender receiver ts ∈
      (addMessage store cid text sender receiver ts).filter
        (fun r => r.contact_id == cid) := by
    simp [addMessage, List.filter_append, List.filter_cons, mkMessageRecord]
  simpa [getConversationHistory] using
    ((sortByTs_perm ((addMessage store cid text sender receiver ts).filter
      (fun r => r.contact_id == cid))).mem_iff).mpr hmem

/-- A value returned by an association-list lookup is bound in the
list under some key. -/
theorem exists_key_of_lookup_eq_some {α : Type} {l : List (String × α)}
    {k : String} {v : α} (h : l.lookup k = some v) : ∃ k₁, (k₁, v) ∈ l := by
  induction l with
  | nil => simp [List.lookup] at h
  | cons p rest ih =>
    obtain ⟨k₁, v₁⟩ := p
    rw [List.lookup] at h
    cases hk : (k == k₁) with
    | true =>
      rw [hk] at h
      simp only at h
      injection h with hv
      exact ⟨k₁, by simp [hv]⟩
    | false =>
      rw [hk] at h
      simp only at h
      obtain ⟨k₂, hk₂⟩ := ih h
      exact ⟨k₂, by simp [hk₂]⟩

/-- Counterexample to C9 as stated: the "Contact not found in aliases"
branch of `process_command` is reachable with a non-empty parsed
recipient, because `if not contact_id` treats an empty-string resolved
id as a failure — an alias map binding "john" to the empty string sends
the perfectly parsed command into the not-found error branch. -/
theorem emptyAliasValueNotFound_counterexample :
    processCommandDecision "send \"hi\" to john" [("john", "")] =
      SendDecision.notFound "john" := by
  decide

/-- Claim C9 (amended): `EndMessageMCP._resolve_contact` never returns
`none` for a non-empty recipient name — with no alias match it returns
the literal name with no phone-like validation — and whenever every
alias value is non-empty, `process_command` can never reach the
"Contact not found in aliases" error branch: an unrecognized name is
passed on verbatim as the message destination. -/
theorem resolveNeverFailsSpec (command name : String)
    (aliases : List (String × String)) (r : String) :
    (name ≠ "" → (resolveContact name aliases).isSome) ∧
    ((∀ kv ∈ aliases, kv.2 ≠ "") →
      processCommandDecision command aliases ≠ SendDecision.notFound r) := by
  constructor
  · intro hname
    unfold resolveContact
    cases h₁ : aliases.lookup (pyStrip (pyLower name)) with
    | some cid => simp [h₁]
    | none =>
      cases h₂ : aliases.find? (fun p => hasSub p.1.data (pyStrip (pyLower name)).data ||
          hasSub (pyStrip (pyLower name)).data p.1.data) with
      | some p => simp [h₁, h₂]
      | none => simp [h₁, h₂, hname]
  · intro hval
    unfold processCommandDecision
    match hp : parseSendCommand command with
    | (none, _) => simp
    | (some _, none) => simp
    | (some m, some rn) =>
      simp only
      by_cases hempty : m = "" || rn = ""
      · simp [hempty]
      · simp only [hempty, Bool.false_eq_true, if_false]
        have hrn : rn ≠ "" := by
          intro hc
          simp [hc] at hempty
        cases hres : resolveContact rn aliases with
        | none =>
          exfalso
          simp only [resolveContact] at hres
          cases h₁ : aliases.lookup (pyStrip (pyLower rn)) with
          | some cid => simp [h₁] at hres
          | none =>
            cases h₂ : aliases.find? (fun p =>
                hasSub p.1.data (pyStrip (pyLower rn)).data ||
                hasSub (pyStrip (pyLower rn)).data p.1.data) with
            | some p => simp [h₁, h₂] at hres
            | none => simp [h₁, h₂, hrn] at hres
        | some cid =>
          have hcid : cid ≠ "" := by
            simp only [resolveContact] at hres
            cases h₁ : aliases.lookup (pyStrip (pyLower rn)) with
            | some cid₁ =>
              rw [h₁] at hres
              simp only [Option.some.injEq] at hres
              obtain ⟨k₁, hk₁⟩ := exists_key_of_lookup_eq_some h₁
              rw [← hres]
              exact hval (k₁, cid₁) hk₁
            | none =>
              rw [h₁] at hres
              cases h₂ : aliases.find? (fun p =>
                  hasSub p.1.data (pyStrip (pyLower rn)).data ||
                  hasSub (pyStrip (pyLower rn)).data p.1.data) with
              | some p =>
                rw [h₂] at hres
                simp only [Option.some.injEq] at hres
                subst hres
                exact hval p (List.mem_of_find?_eq_some h₂)
              | none =>
                rw [h₂, if_neg hrn] at hres
                injection hres with hv
                rw [← hv]
                exact hrn
          simp [hres, hcid]

/-- Witness for C9 at a concrete command: an unknown non-empty
recipient resolves to itself and the not-found branch is not taken. -/
theorem resolveNeverFailsSpec_witness :
    (resolveContact "Zara" [("john", "111")]).isSome = true ∧
    processCommandDecision "send \"hi\" to Zara" [("john", "111")] ≠
      SendDecision.notFound "Zara" :=
  ⟨(resolveNeverFailsSpec "x" "Zara" [("john", "111")] "Zara").1 (by decide),
   (resolveNeverFailsSpec "send \"hi\" to Zara" "Zara" [("john", "111")] "Zara").2
     (by decide)⟩

/-- Claim C10: for a normalized key with fewer than 10 digits the
matching suffix is the entire digit string, so lookups and webhook
updates resolve to the first stored contact whose number merely ends
with those digits. -/
theorem shortKeyWholeSuffixSpec (phone : String) (contacts : Contacts)
    (webhook_name : Option String)
    (hlen : (normalizePhone phone).data.length < 10) :
    lastTenChars (normalizePhone phone) = normalizePhone phone ∧
    (contacts.lookup (normalizePhone phone) = none →
      ∀ p, contacts.find?
          (fun q => (normalizePhone phone).data.isSuffixOf q.1.data) = some p →
        (normalizePhone phone ≠ "" → p.2.name ≠ "" →
          getContactName contacts phone = p.2.name) ∧
        (updateContactFromWebhook contacts phone webhook_name).2 = p.2.name) := by
  have hsfx : lastTenChars (normalizePhone phone) = normalizePhone phone := by
    unfold lastTenChars
    rw [Nat.sub_eq_zero_of_le (le_of_lt hlen), List.drop_zero, mk_data]
  refine ⟨hsfx, ?_⟩
  intro h₁ p h₂
  constructor
  · intro hnk hname
    simp [getContactName, hnk, h₁, hsfx, h₂, hname]
  · simp [updateContactFromWebhook, h₁, hsfx, h₂]

/-- Witness for C10: the 3-digit key "890" resolves to the name of the
first stored number ending in those three digits. -/
theorem shortKeyWholeSuffixSpec_witness :
    getContactName [("911234567890", ⟨"Alice", true⟩), ("111890", ⟨"Bob", true⟩)]
        "890" = "Alice" ∧
    (updateContactFromWebhook
        [("911234567890", ⟨"Alice", true⟩), ("111890", ⟨"Bob", true⟩)] "890" none).2 =
      "Alice" := by
  have h := (shortKeyWholeSuffixSpec "890"
      [("911234567890", ⟨"Alice", true⟩), ("111890", ⟨"Bob", true⟩)] none
      (by decide)).2 (by decide) ("911234567890", ⟨"Alice", true⟩) (by decide)
  exact ⟨h.1 (by decide) (by decide), h.2⟩

end WAuto
